import Mathlib

/-!
Shallow embedding of the WebRTC karaoke signaling server
(`server-https.js`, class `SignalingServer`).

Connections (WebSocket objects) are modelled as natural numbers.  The
server state holds the two JavaScript `Map`s, `rooms` and `connections`,
modelled as association lists with JS `Map` semantics (`set` replaces
the value in place when the key exists, otherwise appends; iteration is
in insertion order).  Socket-level facts the handlers consult but do not
own (`readyState === OPEN`, `Date.now()`, the random viewer id) are an
`Env` record.  Handlers are pure functions `ServerState → ServerState ×
List Effect`, where an `Effect` is a `ws.send` of an outbound message or
a `ws.close` with a code and reason.
-/

namespace Karaoke

/-- JS `Map.get`: value at the matching key, if any (keys are unique in
a `Map`; lookup takes the first occurrence). -/
def mapGet {κ β : Type} [BEq κ] (m : List (κ × β)) (k : κ) : Option β :=
  (m.find? (fun e => e.1 == k)).map (fun e => e.2)

/-- JS `Map.has`. -/
def mapHas {κ β : Type} [BEq κ] (m : List (κ × β)) (k : κ) : Bool :=
  m.any (fun e => e.1 == k)

/-- JS `Map.set`: replace the entry in place when the key is present
(keeping its position), else append at the end. -/
def mapSet {κ β : Type} [BEq κ] : List (κ × β) → κ → β → List (κ × β)
  | [], k, v => [(k, v)]
  | e :: m, k, v => if e.1 == k then (k, v) :: m else e :: mapSet m k v

/-- JS `Map.delete`. -/
def mapDelete {κ β : Type} [BEq κ] (m : List (κ × β)) (k : κ) : List (κ × β) :=
  m.filter (fun e => e.1 != k)

/-- JS `Set.add` on a `Set<WebSocket>` (insertion-ordered, no duplicates). -/
def setAdd (s : List Nat) (x : Nat) : List Nat :=
  if s.contains x then s else s ++ [x]

/-- JS `Set.delete`. -/
def setDel (s : List Nat) (x : Nat) : List Nat :=
  s.filter (fun y => y != x)

/-- The value stored in `connections`: `{type: 'host'|'viewer', roomId, viewerId?}`. -/
inductive Binding where
  | host (roomId : String)
  | viewer (roomId : String) (viewerId : String)
deriving DecidableEq, Repr

def Binding.roomId : Binding → String
  | .host r => r
  | .viewer r _ => r

/-- `connection.viewerId` (`undefined` on a host binding). -/
def Binding.viewerId? : Binding → Option String
  | .host _ => none
  | .viewer _ v => some v

def Binding.isHost : Binding → Bool
  | .host _ => true
  | .viewer _ _ => false

/-- A `rooms` entry: `{host: ws, viewers: Set<ws>, createdAt: Date.now()}`. -/
structure Room where
  host : Nat
  viewers : List Nat
  createdAt : Nat
deriving DecidableEq, Repr

/-- The mutable server state the claims are about. -/
structure ServerState where
  rooms : List (String × Room)
  connections : List (Nat × Binding)
  maxRooms : Nat
deriving DecidableEq, Repr

/-- Outbound messages, one constructor per `JSON.stringify` shape the
server emits.  Opaque payloads (`offer`, `answer`, `candidate`) are the
raw field of the inbound message, hence `Option String` (`undefined`
forwards as `undefined`). -/
inductive OutMsg where
  | errorMsg (message : String)
  | roomCreated (roomId : String)
  | roomNotFound
  | roomJoined (roomId : String) (viewerId : String)
  | viewerJoined (viewerId : String)
  | viewerLeft (viewerId : String)
  | offerOut (offer : Option String)
  | answerOut (answer : Option String) (viewerId : String)
  | iceOut (candidate : Option String) (viewerId : Option String)
  | hostDisconnected
deriving DecidableEq, Repr

/-- Observable socket actions of one handler run. -/
inductive Effect where
  | send (dst : Nat) (msg : OutMsg)
  | close (conn : Nat) (code : Nat) (reason : String)
deriving DecidableEq, Repr

/-- Ambient socket facts: which sockets currently have
`readyState === WebSocket.OPEN`, the clock, and the next value of
`generateViewerId()`. -/
structure Env where
  isOpen : Nat → Bool
  now : Nat
  newViewerId : String

/-- A parsed inbound message, as destructured by the handlers.  A field
is `none` when absent from the JSON object (or, for `roomId?`, when it
is present but not a string — the handlers treat both alike). -/
structure InMsg where
  type? : Option String := none
  roomId? : Option String := none
  viewerId? : Option String := none
  offer? : Option String := none
  answer? : Option String := none
  candidate? : Option String := none
deriving DecidableEq, Repr

/-- JS truthiness of `message.roomId` / `message.type` for a string-or-absent
field: falsy iff absent or the empty string. -/
def strFalsy : Option String → Bool
  | none => true
  | some s => s == ""

/-- `handleCreateRoom` (server-https.js lines 259–294). -/
def handleCreateRoom (env : Env) (ws : Nat) (m : InMsg) (st : ServerState) :
    ServerState × List Effect :=
  match m.roomId? with
  | none => (st, [.send ws (.errorMsg "Invalid room ID")])
  | some rid =>
    if rid = "" ∨ rid.length > 20 then
      (st, [.send ws (.errorMsg "Invalid room ID")])
    else if st.rooms.length ≥ st.maxRooms then
      (st, [.send ws (.errorMsg "Maximum rooms reached")])
    else if mapHas st.rooms rid then
      (st, [.send ws (.errorMsg "Room already exists")])
    else
      ({ st with
          rooms := mapSet st.rooms rid ⟨ws, [], env.now⟩,
          connections := mapSet st.connections ws (.host rid) },
        [.send ws (.roomCreated rid)])

/-- `handleJoinRoom` (server-https.js lines 296–339). -/
def handleJoinRoom (env : Env) (ws : Nat) (m : InMsg) (st : ServerState) :
    ServerState × List Effect :=
  match m.roomId? with
  | none => (st, [.send ws .roomNotFound])
  | some rid =>
    if rid = "" then (st, [.send ws .roomNotFound])
    else
      match mapGet st.rooms rid with
      | none => (st, [.send ws .roomNotFound])
      | some room =>
        if room.viewers.length ≥ 50 then
          (st, [.send ws (.errorMsg "Room is full")])
        else
          let vid := env.newViewerId
          ({ st with
              rooms := mapSet st.rooms rid { room with viewers := setAdd room.viewers ws },
              connections := mapSet st.connections ws (.viewer rid vid) },
            [.send ws (.roomJoined rid vid)] ++
              (if env.isOpen room.host then [.send room.host (.viewerJoined vid)] else []))

/-- `handleLeaveRoom` (server-https.js lines 341–361).  The inbound
message is ignored by the handler's body. -/
def handleLeaveRoom (env : Env) (ws : Nat) (st : ServerState) :
    ServerState × List Effect :=
  match mapGet st.connections ws with
  | none => (st, [])
  | some conn =>
    match mapGet st.rooms conn.roomId with
    | none => (st, [])
    | some room =>
      match conn with
      | .host _ =>
        ({ st with connections := mapDelete st.connections ws }, [])
      | .viewer rid vid =>
        ({ st with
            rooms := mapSet st.rooms rid { room with viewers := setDel room.viewers ws },
            connections := mapDelete st.connections ws },
          if env.isOpen room.host then [.send room.host (.viewerLeft vid)] else [])

/-- The `for (const viewer of room.viewers)` search shared by
`handleOffer` and the host branch of `handleIceCandidate`: the first
member of the viewer set whose `connections` entry exists and whose
`viewerId` field equals the message's `viewerId` (JS `===`, where
`undefined === undefined` holds). -/
def findTarget (st : ServerState) (viewers : List Nat) (vid? : Option String) : Option Nat :=
  viewers.find? (fun v =>
    match mapGet st.connections v with
    | some b => b.viewerId? == vid?
    | none => false)

/-- `handleOffer` (server-https.js lines 363–384). -/
def handleOffer (env : Env) (ws : Nat) (m : InMsg) (st : ServerState) :
    ServerState × List Effect :=
  match mapGet st.connections ws with
  | none => (st, [])
  | some conn =>
    if conn.isHost = false then (st, [])
    else
      match mapGet st.rooms conn.roomId with
      | none => (st, [])
      | some room =>
        match findTarget st room.viewers m.viewerId? with
        | none => (st, [])
        | some v =>
          (st, if env.isOpen v then [.send v (.offerOut m.offer?)] else [])

/-- `handleAnswer` (server-https.js lines 386–402). -/
def handleAnswer (env : Env) (ws : Nat) (m : InMsg) (st : ServerState) :
    ServerState × List Effect :=
  match mapGet st.connections ws with
  | none => (st, [])
  | some conn =>
    match conn with
    | .host _ => (st, [])
    | .viewer rid vid =>
      match mapGet st.rooms rid with
      | none => (st, [])
      | some room =>
        (st, if env.isOpen room.host then [.send room.host (.answerOut m.answer? vid)] else [])

/-- `handleIceCandidate` (server-https.js lines 404–435). -/
def handleIceCandidate (env : Env) (ws : Nat) (m : InMsg) (st : ServerState) :
    ServerState × List Effect :=
  match mapGet st.connections ws with
  | none => (st, [])
  | some conn =>
    match mapGet st.rooms conn.roomId with
    | none => (st, [])
    | some room =>
      match conn with
      | .host _ =>
        (st, match findTarget st room.viewers m.viewerId? with
          | none => []
          | some v => if env.isOpen v then [.send v (.iceOut m.candidate? none)] else [])
      | .viewer _ vid =>
        (st, if env.isOpen room.host then [.send room.host (.iceOut m.candidate? (some vid))] else [])

/-- `handleDisconnection` (server-https.js lines 437–468). -/
def handleDisconnection (env : Env) (ws : Nat) (st : ServerState) :
    ServerState × List Effect :=
  match mapGet st.connections ws with
  | none => (st, [])
  | some conn =>
    match mapGet st.rooms conn.roomId with
    | none => (st, [])
    | some room =>
      match conn with
      | .host rid =>
        ({ st with
            rooms := mapDelete st.rooms rid,
            connections := mapDelete st.connections ws },
          (room.viewers.filter env.isOpen).map (fun v => .send v .hostDisconnected))
      | .viewer rid vid =>
        ({ st with
            rooms := mapSet st.rooms rid { room with viewers := setDel room.viewers ws },
            connections := mapDelete st.connections ws },
          if env.isOpen room.host then [.send room.host (.viewerLeft vid)] else [])

/-- `handleMessage` (server-https.js lines 222–257): dispatch on
`message.type`; a falsy or unknown `type` is dropped. -/
def handleMessage (env : Env) (ws : Nat) (m : InMsg) (st : ServerState) :
    ServerState × List Effect :=
  if strFalsy m.type? then (st, [])
  else
    match m.type? with
    | some "create-room" => handleCreateRoom env ws m st
    | some "join-room" => handleJoinRoom env ws m st
    | some "leave-room" => handleLeaveRoom env ws st
    | some "offer" => handleOffer env ws m st
    | some "answer" => handleAnswer env ws m st
    | some "ice-candidate" => handleIceCandidate env ws m st
    | _ => (st, [])

/-- The result of `JSON.parse` on an inbound frame: `ok` when it yields
an object whose fields destructure, `malformed` when parsing (or the
first member access) throws. -/
inductive FrameContent where
  | ok (m : InMsg)
  | malformed
deriving DecidableEq, Repr

/-- A raw inbound frame: its byte length and parse result. -/
structure RawFrame where
  size : Nat
  content : FrameContent
deriving DecidableEq, Repr

/-- The `ws.on('message')` callback (server-https.js lines 154–167):
oversize frames close with 1009, frames whose parse throws close with
1003, everything else goes to `handleMessage`. -/
def onMessage (env : Env) (ws : Nat) (f : RawFrame) (st : ServerState) :
    ServerState × List Effect :=
  if f.size > 16384 then (st, [.close ws 1009 "Message too large"])
  else
    match f.content with
    | .malformed => (st, [.close ws 1003 "Invalid message format"])
    | .ok m => handleMessage env ws m st

/-- `const staleThreshold = 30 * 60 * 1000`. -/
def staleThreshold : Nat := 30 * 60 * 1000

/-- The body of the `for (const [roomId, room] of this.rooms.entries())`
loop in `cleanupStaleRooms`, run over a snapshot of the entries (JS
`Map` iteration visits each entry once; deleting the current entry does
not disturb the rest). -/
def sweep (env : Env) (entries : List (String × Room)) (st : ServerState)
    (effs : List Effect) : ServerState × List Effect :=
  match entries with
  | [] => (st, effs)
  | (rid, room) :: rest =>
    if env.isOpen room.host = false then
      sweep env rest { st with rooms := mapDelete st.rooms rid } effs
    else if room.createdAt ≠ 0 ∧ (env.now : Int) - (room.createdAt : Int) > (staleThreshold : Int) then
      sweep env rest { st with rooms := mapDelete st.rooms rid }
        (effs ++ (if env.isOpen room.host then [.close room.host 1000 "Room expired"] else []))
    else
      sweep env rest st effs

/-- `cleanupStaleRooms` (server-https.js lines 201–220). -/
def cleanupStaleRooms (env : Env) (st : ServerState) : ServerState × List Effect :=
  sweep env st.rooms st []

/-- The Room Table / Binding Table consistency invariant of the spec
(§3, Connection Role Binding): every binding's `roomId` names an
existing room, and a viewer binding's connection is in that room's
viewer set. -/
def entryOk (rooms : List (String × Room)) (e : Nat × Binding) : Bool :=
  match mapGet rooms e.2.roomId with
  | none => false
  | some room =>
    match e.2 with
    | .host _ => true
    | .viewer _ _ => room.viewers.contains e.1

def consistentB (st : ServerState) : Bool :=
  st.connections.all (entryOk st.rooms)

/-! ### Association-list and set lemmas -/

section MapLemmas

variable {κ β : Type} [BEq κ] [LawfulBEq κ]

omit [LawfulBEq κ] in
theorem mapGet_nil (k : κ) : mapGet ([] : List (κ × β)) k = none := rfl

omit [LawfulBEq κ] in
theorem mapGet_cons (e : κ × β) (m : List (κ × β)) (k : κ) :
    mapGet (e :: m) k = if e.1 == k then some e.2 else mapGet m k := by
  by_cases h : (e.1 == k) = true <;> simp [mapGet, List.find?, h]

theorem mapGet_mapSet (m : List (κ × β)) (k k' : κ) (v : β) :
    mapGet (mapSet m k v) k' = if k' == k then some v else mapGet m k' := by
  induction m with
  | nil =>
    by_cases h : k' = k
    · simp [mapSet, mapGet_cons, beq_iff_eq, h]
    · have h' : k ≠ k' := fun hc => h hc.symm
      simp [mapSet, mapGet_cons, mapGet_nil, beq_iff_eq, beq_eq_false_iff_ne, h, h']
  | cons e m ih =>
    by_cases he : e.1 = k <;> by_cases h : k' = k
    · simp [mapSet, he, mapGet_cons, beq_iff_eq, h]
    · have h' : k ≠ k' := fun hc => h hc.symm
      have h3 : e.1 ≠ k' := he ▸ h'
      simp [mapSet, he, mapGet_cons, beq_iff_eq, beq_eq_false_iff_ne, h, h', h3]
    · have h3 : e.1 ≠ k' := fun hc => he (hc.trans h)
      rw [h] at ih
      simp only [beq_self_eq_true, if_true] at ih
      simp [mapSet, he, mapGet_cons, beq_iff_eq, beq_eq_false_iff_ne, h, h3, ih]
    · by_cases h3 : e.1 = k' <;>
        simp [mapSet, he, mapGet_cons, beq_iff_eq, beq_eq_false_iff_ne, h, h3, ih]

theorem mapGet_mapSet_self (m : List (κ × β)) (k : κ) (v : β) :
    mapGet (mapSet m k v) k = some v := by
  simp [mapGet_mapSet]

theorem mapGet_mapSet_ne (m : List (κ × β)) {k k' : κ} (v : β) (h : k' ≠ k) :
    mapGet (mapSet m k v) k' = mapGet m k' := by
  simp [mapGet_mapSet, h]

omit [LawfulBEq κ] in
theorem mapDelete_cons (e : κ × β) (m : List (κ × β)) (k : κ) :
    mapDelete (e :: m) k = if e.1 == k then mapDelete m k else e :: mapDelete m k := by
  by_cases h : (e.1 == k) = true <;> simp [mapDelete, List.filter, bne, h]

theorem mapGet_mapDelete (m : List (κ × β)) (k k' : κ) :
    mapGet (mapDelete m k) k' = if k' == k then none else mapGet m k' := by
  induction m with
  | nil =>
    by_cases h : k' = k <;>
      simp [mapDelete, mapGet_nil, beq_iff_eq, beq_eq_false_iff_ne, h]
  | cons e m ih =>
    by_cases he : e.1 = k <;> by_cases h : k' = k
    · rw [h] at ih
      simp only [beq_self_eq_true, if_true] at ih
      simp [mapDelete_cons, he, beq_iff_eq, h, ih]
    · have h' : k ≠ k' := fun hc => h hc.symm
      have h3 : e.1 ≠ k' := he ▸ h'
      simp [mapDelete_cons, he, beq_iff_eq, beq_eq_false_iff_ne, h, h', h3, ih, mapGet_cons]
    · have h3 : e.1 ≠ k' := fun hc => he (hc.trans h)
      rw [h] at ih
      simp only [beq_self_eq_true, if_true] at ih
      simp [mapDelete_cons, he, beq_iff_eq, beq_eq_false_iff_ne, h, h3, ih, mapGet_cons]
    · by_cases h3 : e.1 = k' <;>
        simp [mapDelete_cons, he, beq_iff_eq, beq_eq_false_iff_ne, h, h3, ih, mapGet_cons]

theorem mapGet_mapDelete_self (m : List (κ × β)) (k : κ) :
    mapGet (mapDelete m k) k = none := by
  simp [mapGet_mapDelete]

theorem mapGet_mapDelete_ne (m : List (κ × β)) {k k' : κ} (h : k' ≠ k) :
    mapGet (mapDelete m k) k' = mapGet m k' := by
  simp [mapGet_mapDelete, h]

omit [LawfulBEq κ] in
theorem mem_mapSet {m : List (κ × β)} {k : κ} {v : β} {p : κ × β}
    (h : p ∈ mapSet m k v) : p = (k, v) ∨ p ∈ m := by
  induction m with
  | nil => simpa [mapSet] using h
  | cons e m ih =>
    simp only [mapSet] at h
    by_cases he : (e.1 == k) = true
    · rw [if_pos he] at h
      rcases List.mem_cons.mp h with h1 | h1
      · exact Or.inl h1
      · exact Or.inr (List.mem_cons_of_mem e h1)
    · rw [if_neg he] at h
      rcases List.mem_cons.mp h with h1 | h1
      · exact Or.inr (h1 ▸ List.mem_cons_self e m)
      · rcases ih h1 with h2 | h2
        · exact Or.inl h2
        · exact Or.inr (List.mem_cons_of_mem e h2)

theorem mem_mapDelete {m : List (κ × β)} {k : κ} {p : κ × β}
    (h : p ∈ mapDelete m k) : p ∈ m ∧ p.1 ≠ k := by
  have h2 := List.mem_filter.mp h
  refine ⟨h2.1, ?_⟩
  simpa [bne] using h2.2

omit [LawfulBEq κ] in
theorem mapGet_eq_none_of_mapHas_false {m : List (κ × β)} {k : κ}
    (h : mapHas m k = false) : mapGet m k = none := by
  simp only [mapHas, List.any_eq_false] at h
  have h2 : List.find? (fun e => e.1 == k) m = none :=
    List.find?_eq_none.mpr (fun e he => h e he)
  simp [mapGet, h2]

end MapLemmas

theorem setAdd_contains_self (s : List Nat) (x : Nat) :
    (setAdd s x).contains x = true := by
  by_cases h : s.contains x = true <;>
    simp_all [setAdd, List.contains, List.elem_iff]

theorem setAdd_contains_of_contains {s : List Nat} {y : Nat} (x : Nat)
    (h : s.contains y = true) : (setAdd s x).contains y = true := by
  by_cases h2 : s.contains x = true <;>
    simp_all [setAdd, List.contains, List.elem_iff]

theorem setDel_contains_of_ne {s : List Nat} {x y : Nat} (h : y ≠ x)
    (h2 : s.contains y = true) : (setDel s x).contains y = true := by
  simp only [setDel, List.contains, List.elem_iff] at h2 ⊢
  exact List.mem_filter.mpr ⟨h2, by simpa [bne] using h⟩

/-! ### Concrete states used by witnesses and counterexamples -/

/-- An environment in which every socket is open. -/
def envT : Env := ⟨fun _ => true, 5, "v9"⟩

/-- An environment in which no socket is open. -/
def envF : Env := ⟨fun _ => false, 5, "v9"⟩

/-- Empty server. -/
def st0 : ServerState := { rooms := [], connections := [], maxRooms := 100 }

/-- One room `"R"` with host `0` and viewers `1`, `2`. -/
def stA : ServerState :=
  { rooms := [("R", ⟨0, [1, 2], 1⟩)],
    connections := [(0, .host "R"), (1, .viewer "R" "v1"), (2, .viewer "R" "v2")],
    maxRooms := 100 }

/-- One room `"R"` with host `0` and no viewers. -/
def stB : ServerState :=
  { rooms := [("R", ⟨0, [], 7⟩)], connections := [(0, .host "R")], maxRooms := 100 }

/-- One room `"A"`, and the room table already at its capacity of 1. -/
def stC : ServerState :=
  { rooms := [("A", ⟨0, [], 7⟩)], connections := [(0, .host "A")], maxRooms := 1 }

/-! ### C2 — host leave-room -/

/-- C2 counterexample: connection `0` is bound as host of room `"R"`;
processing its leave-room message removes the binding but leaves the
room in the Room Table — the claim says the room is removed as on a
host disconnection. -/
theorem C2_counterexample :
    mapGet stB.connections 0 = some (.host "R") ∧
    mapGet (handleLeaveRoom envT 0 stB).1.rooms "R" = some ⟨0, [], 7⟩ ∧
    mapGet (handleLeaveRoom envT 0 stB).1.connections 0 = none := by
  refine ⟨rfl, rfl, rfl⟩

/-- C2 (amended): processing a leave-room message from a connection
bound as host of an existing room removes only the host's binding; the
Room Table is left entirely unchanged (the room survives, now with a
host that has no binding) and no message is emitted. -/
theorem C2_theorem (env : Env) (ws : Nat) (st : ServerState) (rid : String) (room : Room)
    (h1 : mapGet st.connections ws = some (.host rid))
    (h2 : mapGet st.rooms rid = some room) :
    (handleLeaveRoom env ws st).1.rooms = st.rooms ∧
    mapGet (handleLeaveRoom env ws st).1.connections ws = none ∧
    (handleLeaveRoom env ws st).2 = [] := by
  simp [handleLeaveRoom, h1, Binding.roomId, h2, mapGet_mapDelete_self]

/-- Witness for C2_theorem at the concrete state `stB`. -/
theorem C2_witness :
    (handleLeaveRoom envT 0 stB).1.rooms = stB.rooms ∧
    mapGet (handleLeaveRoom envT 0 stB).1.connections 0 = none ∧
    (handleLeaveRoom envT 0 stB).2 = [] :=
  C2_theorem envT 0 stB "R" ⟨0, [], 7⟩ rfl rfl

/-! ### C5 — duplicate createRoom -/

/-- C5 counterexample: room `"A"` exists and the table is at capacity
(`maxRooms = 1`); a second create-room for `"A"` replies
`Maximum rooms reached`, not `Room already exists` — the capacity check
runs before the duplicate check. -/
theorem C5_counterexample :
    mapHas stC.rooms "A" = true ∧
    (handleCreateRoom envT 3 { roomId? := some "A" } stC).2 =
      [.send 3 (.errorMsg "Maximum rooms reached")] ∧
    (handleCreateRoom envT 3 { roomId? := some "A" } stC).2 ≠
      [.send 3 (.errorMsg "Room already exists")] := by
  refine ⟨rfl, rfl, by decide⟩

/-- C5 (amended): a create-room whose identifier passes validation and
already names an existing room replies `Room already exists` and leaves
the state unchanged — provided the room count is below the maximum;
when the table is at capacity the `Maximum rooms reached` reply takes
precedence over the duplicate error. -/
theorem C5_theorem (env : Env) (ws : Nat) (m : InMsg) (st : ServerState) (rid : String)
    (h0 : m.roomId? = some rid) (h1 : rid ≠ "") (h2 : rid.length ≤ 20)
    (h3 : mapHas st.rooms rid = true) :
    (st.rooms.length < st.maxRooms →
      handleCreateRoom env ws m st = (st, [.send ws (.errorMsg "Room already exists")])) ∧
    (st.rooms.length ≥ st.maxRooms →
      handleCreateRoom env ws m st = (st, [.send ws (.errorMsg "Maximum rooms reached")])) := by
  constructor
  · intro hcap
    have hA : ¬ (rid = "" ∨ rid.length > 20) := by
      push_neg
      exact ⟨h1, h2⟩
    have hB : ¬ st.rooms.length ≥ st.maxRooms := Nat.not_le.mpr hcap
    simp [handleCreateRoom, h0, hA, hB, h3]
  · intro hcap
    have hA : ¬ (rid = "" ∨ rid.length > 20) := by
      push_neg
      exact ⟨h1, h2⟩
    simp [handleCreateRoom, h0, hA, hcap]

/-- Witness for C5_theorem at the concrete state `stC` (at capacity). -/
theorem C5_witness :
    handleCreateRoom envT 3 { roomId? := some "A" } stC =
      (stC, [.send 3 (.errorMsg "Maximum rooms reached")]) :=
  (C5_theorem envT 3 { roomId? := some "A" } stC "A" rfl (by decide) (by decide) rfl).2
    (by decide)

/-! ### Janitor sweep lemmas -/

/-- The sweep never resurrects a room: a key absent from the table stays
absent through the rest of the loop. -/
theorem sweep_none (env : Env) (entries : List (String × Room)) (k : String) :
    ∀ (st : ServerState) (effs : List Effect), mapGet st.rooms k = none →
      mapGet (sweep env entries st effs).1.rooms k = none := by
  induction entries with
  | nil => intro st effs h; simpa [sweep] using h
  | cons e rest ih =>
    intro st effs h
    rcases e with ⟨rid, room⟩
    have hdel : mapGet (mapDelete st.rooms rid) k = none := by
      by_cases hk : k = rid <;> simp [mapGet_mapDelete, beq_iff_eq, hk, h]
    by_cases h1 : env.isOpen room.host = false
    · rw [sweep, if_pos h1]
      exact ih _ _ hdel
    · by_cases h2 : room.createdAt ≠ 0 ∧
        (env.now : Int) - (room.createdAt : Int) > (staleThreshold : Int)
      · rw [sweep, if_neg h1, if_pos h2]
        exact ih _ _ hdel
      · rw [sweep, if_neg h1, if_neg h2]
        exact ih _ _ h

/-- The sweep only appends to the effect accumulator. -/
theorem sweep_effs_mono (env : Env) (entries : List (String × Room)) :
    ∀ (st : ServerState) (effs : List Effect) (e : Effect), e ∈ effs →
      e ∈ (sweep env entries st effs).2 := by
  induction entries with
  | nil => intro st effs e h; simpa [sweep] using h
  | cons en rest ih =>
    intro st effs e h
    rcases en with ⟨rid, room⟩
    by_cases h1 : env.isOpen room.host = false
    · rw [sweep, if_pos h1]
      exact ih _ _ _ h
    · by_cases h2 : room.createdAt ≠ 0 ∧
        (env.now : Int) - (room.createdAt : Int) > (staleThreshold : Int)
      · rw [sweep, if_neg h1, if_pos h2]
        exact ih _ _ _ (List.mem_append_left _ h)
      · rw [sweep, if_neg h1, if_neg h2]
        exact ih _ _ _ h

/-- A swept entry whose host is dead or whose age is over the threshold
is deleted from the table. -/
theorem sweep_deletes (env : Env) (entries : List (String × Room)) (rid : String) (room : Room)
    (hmem : (rid, room) ∈ entries)
    (hcond : env.isOpen room.host = false ∨
      (room.createdAt ≠ 0 ∧ (env.now : Int) - (room.createdAt : Int) > (staleThreshold : Int))) :
    ∀ (st : ServerState) (effs : List Effect),
      mapGet (sweep env entries st effs).1.rooms rid = none := by
  induction entries with
  | nil => cases hmem
  | cons en rest ih =>
    intro st effs
    rcases en with ⟨rid2, room2⟩
    rcases List.mem_cons.mp hmem with heq | htail
    · injection heq with e1 e2
      subst e1; subst e2
      by_cases h1 : env.isOpen room.host = false
      · rw [sweep, if_pos h1]
        exact sweep_none env rest rid _ _ (mapGet_mapDelete_self _ _)
      · have h2 : room.createdAt ≠ 0 ∧
            (env.now : Int) - (room.createdAt : Int) > (staleThreshold : Int) :=
          hcond.resolve_left h1
        rw [sweep, if_neg h1, if_pos h2]
        exact sweep_none env rest rid _ _ (mapGet_mapDelete_self _ _)
    · by_cases h1 : env.isOpen room2.host = false
      · rw [sweep, if_pos h1]
        exact ih htail _ _
      · by_cases h2 : room2.createdAt ≠ 0 ∧
          (env.now : Int) - (room2.createdAt : Int) > (staleThreshold : Int)
        · rw [sweep, if_neg h1, if_pos h2]
          exact ih htail _ _
        · rw [sweep, if_neg h1, if_neg h2]
          exact ih htail _ _

/-- A swept entry that is stale but whose host is still open gets its
host closed with code 1000 and reason "Room expired". -/
theorem sweep_closes (env : Env) (entries : List (String × Room)) (rid : String) (room : Room)
    (hmem : (rid, room) ∈ entries)
    (hopen : env.isOpen room.host = true)
    (hstale : room.createdAt ≠ 0 ∧
      (env.now : Int) - (room.createdAt : Int) > (staleThreshold : Int)) :
    ∀ (st : ServerState) (effs : List Effect),
      Effect.close room.host 1000 "Room expired" ∈ (sweep env entries st effs).2 := by
  induction entries with
  | nil => cases hmem
  | cons en rest ih =>
    intro st effs
    rcases en with ⟨rid2, room2⟩
    rcases List.mem_cons.mp hmem with heq | htail
    · injection heq with e1 e2
      subst e1; subst e2
      have h1 : ¬ env.isOpen room.host = false := by simp [hopen]
      rw [sweep, if_neg h1, if_pos hstale]
      refine sweep_effs_mono env rest _ _ _ ?_
      simp [hopen]
    · by_cases h1 : env.isOpen room2.host = false
      · rw [sweep, if_pos h1]
        exact ih htail _ _
      · by_cases h2 : room2.createdAt ≠ 0 ∧
          (env.now : Int) - (room2.createdAt : Int) > (staleThreshold : Int)
        · rw [sweep, if_neg h1, if_pos h2]
          exact ih htail _ _
        · rw [sweep, if_neg h1, if_neg h2]
          exact ih htail _ _

/-- The sweep never touches the connections map. -/
theorem sweep_connections (env : Env) (entries : List (String × Room)) :
    ∀ (st : ServerState) (effs : List Effect),
      (sweep env entries st effs).1.connections = st.connections := by
  induction entries with
  | nil => intro st effs; rfl
  | cons en rest ih =>
    intro st effs
    rcases en with ⟨rid, room⟩
    by_cases h1 : env.isOpen room.host = false
    · rw [sweep, if_pos h1]
      exact ih _ _
    · by_cases h2 : room.createdAt ≠ 0 ∧
        (env.now : Int) - (room.createdAt : Int) > (staleThreshold : Int)
      · rw [sweep, if_neg h1, if_pos h2]
        exact ih _ _
      · rw [sweep, if_neg h1, if_neg h2]
        exact ih _ _

/-! ### C7 — janitor behavior -/

/-- An environment whose clock is past the staleness threshold for
`createdAt = 1`. -/
def env7 : Env := ⟨fun _ => true, 1 + staleThreshold + 1, "x"⟩

/-- A single stale room `"S"` created at time 1. -/
def st7 : ServerState :=
  { rooms := [("S", ⟨0, [], 1⟩)], connections := [(0, .host "S")], maxRooms := 100 }

/-- C7 counterexample: sweeping the stale room `"S"` closes its host
with close code 1000 — which is not distinct from the reserved codes
1000/1003/1009/1011/1013; the claim requires a distinct application
code for room expiry. -/
theorem C7_counterexample :
    (cleanupStaleRooms env7 st7).2 = [.close 0 1000 "Room expired"] ∧
    ¬ (∀ c r, Effect.close 0 c r ∈ (cleanupStaleRooms env7 st7).2 →
        c ∉ ([1000, 1003, 1009, 1011, 1013] : List Nat)) := by
  constructor
  · rfl
  · intro h
    exact h 1000 "Room expired" (by decide) (by decide)

/-- C7 (amended): at a janitor sweep, every room whose host connection
is not open is deleted from the Room Table; and every room whose age
exceeds the 30-minute staleness threshold (and whose host is still
open) has its host closed with the ordinary close code 1000 and reason
string "Room expired" — expiry is distinguished by the reason text, not
by a distinct close code — and is deleted from the Room Table. -/
theorem C7_theorem (env : Env) (st : ServerState) (rid : String) (room : Room)
    (hmem : (rid, room) ∈ st.rooms) :
    (env.isOpen room.host = false →
        mapGet (cleanupStaleRooms env st).1.rooms rid = none) ∧
    (env.isOpen room.host = true → room.createdAt ≠ 0 →
        (env.now : Int) - (room.createdAt : Int) > (staleThreshold : Int) →
        mapGet (cleanupStaleRooms env st).1.rooms rid = none ∧
        Effect.close room.host 1000 "Room expired" ∈ (cleanupStaleRooms env st).2) := by
  constructor
  · intro hdead
    exact sweep_deletes env st.rooms rid room hmem (Or.inl hdead) st []
  · intro hopen hcreated hstale
    constructor
    · exact sweep_deletes env st.rooms rid room hmem (Or.inr ⟨hcreated, hstale⟩) st []
    · exact sweep_closes env st.rooms rid room hmem hopen ⟨hcreated, hstale⟩ st []

/-- Witness for C7_theorem: the stale room `"S"` is deleted and its
host closed with 1000 "Room expired". -/
theorem C7_witness :
    mapGet (cleanupStaleRooms env7 st7).1.rooms "S" = none ∧
    Effect.close 0 1000 "Room expired" ∈ (cleanupStaleRooms env7 st7).2 :=
  (C7_theorem env7 st7 "S" ⟨0, [], 1⟩ (by decide)).2 rfl (by decide) (by decide)

/-! ### C8 — inbound frame handling -/

/-- The six message kinds the dispatcher recognizes. -/
def knownKinds : List String :=
  ["create-room", "join-room", "leave-room", "offer", "answer", "ice-candidate"]

/-- C8 counterexample: a small unparseable frame is not silently
dropped — the connection is closed with code 1003, contradicting the
claim that malformed frames are dropped without closing. -/
theorem C8_counterexample :
    onMessage envT 0 ⟨10, .malformed⟩ stB = (stB, [.close 0 1003 "Invalid message format"]) ∧
    (onMessage envT 0 ⟨10, .malformed⟩ stB).2 ≠ [] := by
  refine ⟨rfl, by decide⟩

/-- C8 (amended): a frame longer than 16384 bytes closes the connection
with code 1009; a frame whose JSON parse throws closes it with code
1003 ("Invalid message format"); a parsed frame with a missing/empty
`type` field or an unknown kind is dropped with no reply, no close and
no state change. -/
theorem C8_theorem (env : Env) (ws : Nat) (st : ServerState) (f : RawFrame) :
    (f.size > 16384 → onMessage env ws f st = (st, [.close ws 1009 "Message too large"])) ∧
    (f.size ≤ 16384 → f.content = .malformed →
        onMessage env ws f st = (st, [.close ws 1003 "Invalid message format"])) ∧
    (∀ m, f.size ≤ 16384 → f.content = .ok m → strFalsy m.type? = true →
        onMessage env ws f st = (st, [])) ∧
    (∀ m t, f.size ≤ 16384 → f.content = .ok m → m.type? = some t →
        t ∉ knownKinds → onMessage env ws f st = (st, [])) := by
  refine ⟨?_, ?_, ?_, ?_⟩
  · intro hsz
    simp [onMessage, hsz]
  · intro hsz hc
    simp [onMessage, Nat.not_lt.mpr hsz, hc]
  · intro m hsz hc hty
    simp [onMessage, Nat.not_lt.mpr hsz, hc, handleMessage, hty]
  · intro m t hsz hc hty hun
    simp only [knownKinds, List.mem_cons, List.not_mem_nil, or_false, not_or] at hun
    obtain ⟨u1, u2, u3, u4, u5, u6⟩ := hun
    have hred : onMessage env ws f st = handleMessage env ws m st := by
      simp [onMessage, Nat.not_lt.mpr hsz, hc]
    rw [hred]
    by_cases hfal : strFalsy m.type? = true
    · simp [handleMessage, hfal]
    · rw [handleMessage, if_neg hfal, hty]
      split <;> simp_all

/-- Witness for C8_theorem: an unknown kind `"ping"` is dropped with no
reply and no state change. -/
theorem C8_witness :
    onMessage envT 0 ⟨5, .ok { type? := some "ping" }⟩ stB = (stB, []) :=
  (C8_theorem envT 0 stB ⟨5, .ok { type? := some "ping" }⟩).2.2.2
    { type? := some "ping" } "ping" (by decide) rfl rfl (by decide)

/-! ### C9 — createRoom identifier validation -/

/-- C9 counterexample: identifiers are neither alphabet-restricted nor
case-normalized.  Creating `"abc"` and then `"ABC"` yields two distinct
rooms (the claim says they refer to the same room and the second should
fail), and an identifier with non-alphanumeric characters (`"a!%"`) is
accepted rather than rejected with the InvalidId error. -/
theorem C9_counterexample :
    (handleCreateRoom envT 1 { roomId? := some "ABC" }
        (handleCreateRoom envT 0 { roomId? := some "abc" } st0).1).2 =
      [.send 1 (.roomCreated "ABC")] ∧
    mapGet (handleCreateRoom envT 1 { roomId? := some "ABC" }
        (handleCreateRoom envT 0 { roomId? := some "abc" } st0).1).1.rooms "abc" =
      some ⟨0, [], 5⟩ ∧
    mapGet (handleCreateRoom envT 1 { roomId? := some "ABC" }
        (handleCreateRoom envT 0 { roomId? := some "abc" } st0).1).1.rooms "ABC" =
      some ⟨1, [], 5⟩ ∧
    (handleCreateRoom envT 1 { roomId? := some "a!%" } st0).2 =
      [.send 1 (.roomCreated "a!%")] := by
  refine ⟨rfl, rfl, rfl, rfl⟩

/-- C9 (amended): create-room replies with the InvalidId error
("Invalid room ID") exactly when the identifier is absent or not a
string, empty, or longer than 20 characters; any other string — with
arbitrary characters and treated case-sensitively — that is unused
while the table is below capacity creates a room under precisely that
string. -/
theorem C9_theorem (env : Env) (ws : Nat) (m : InMsg) (st : ServerState) :
    ((m.roomId? = none ∨ m.roomId? = some "" ∨
        (∃ rid, m.roomId? = some rid ∧ rid.length > 20)) →
      handleCreateRoom env ws m st = (st, [.send ws (.errorMsg "Invalid room ID")])) ∧
    (∀ rid, m.roomId? = some rid → rid ≠ "" → rid.length ≤ 20 →
      st.rooms.length < st.maxRooms → mapHas st.rooms rid = false →
      handleCreateRoom env ws m st =
        ({ st with rooms := mapSet st.rooms rid ⟨ws, [], env.now⟩,
                   connections := mapSet st.connections ws (.host rid) },
          [.send ws (.roomCreated rid)])) := by
  constructor
  · intro h
    rcases h with h | h | ⟨rid, h, hlen⟩
    · simp [handleCreateRoom, h]
    · simp [handleCreateRoom, h]
    · simp [handleCreateRoom, h, hlen]
  · intro rid h0 h1 h2 hcap hfresh
    have hA : ¬ (rid = "" ∨ rid.length > 20) := by
      push_neg
      exact ⟨h1, h2⟩
    have hB : ¬ st.rooms.length ≥ st.maxRooms := Nat.not_le.mpr hcap
    simp [handleCreateRoom, h0, hA, hB, hfresh]

/-- Witness for C9_theorem: the identifier `"a!B"` (mixed case,
punctuation) is accepted and installs a room under that exact string. -/
theorem C9_witness :
    handleCreateRoom envT 4 { roomId? := some "a!B" } st0 =
      ({ st0 with rooms := mapSet st0.rooms "a!B" ⟨4, [], envT.now⟩,
                  connections := mapSet st0.connections 4 (.host "a!B") },
        [.send 4 (.roomCreated "a!B")]) :=
  (C9_theorem envT 4 { roomId? := some "a!B" } st0).2 "a!B" rfl (by decide) (by decide)
    (by decide) rfl

/-! ### C3 — role transitions -/

/-- C3 counterexample: connection `0` is already bound as host of room
`"R"`; a create-room for `"B"` installs a new binding (host of `"B"`)
while room `"R"` still lists `0` as its host — contradicting the claim
that a bound connection's create-room installs no new binding. -/
theorem C3_counterexample :
    mapGet stB.connections 0 = some (.host "R") ∧
    mapGet (handleCreateRoom envT 0 { roomId? := some "B" } stB).1.connections 0 =
      some (.host "B") ∧
    mapGet (handleCreateRoom envT 0 { roomId? := some "B" } stB).1.rooms "R" =
      some ⟨0, [], 7⟩ ∧
    mapGet (handleCreateRoom envT 0 { roomId? := some "B" } stB).1.rooms "B" =
      some ⟨0, [], 5⟩ := by
  refine ⟨rfl, rfl, rfl, rfl⟩

/-- C3 (amended): the handlers do not guard on an existing role: a
create-room or join-room that passes its own checks succeeds even for a
connection already bound as Host or Viewer, overwriting that
connection's binding with the new role while every other room of the
table — in particular the previous room and its structures — is left
unchanged. -/
theorem C3_theorem (env : Env) (ws : Nat) (m : InMsg) (st : ServerState)
    (b : Binding) (hb : mapGet st.connections ws = some b) :
    (∀ rid, m.roomId? = some rid → rid ≠ "" → rid.length ≤ 20 →
      st.rooms.length < st.maxRooms → mapHas st.rooms rid = false →
      mapGet (handleCreateRoom env ws m st).1.connections ws = some (.host rid) ∧
      (∀ r, r ≠ rid → mapGet (handleCreateRoom env ws m st).1.rooms r = mapGet st.rooms r)) ∧
    (∀ rid room, m.roomId? = some rid → rid ≠ "" → mapGet st.rooms rid = some room →
      room.viewers.length < 50 →
      mapGet (handleJoinRoom env ws m st).1.connections ws =
        some (.viewer rid env.newViewerId) ∧
      (∀ r, r ≠ rid → mapGet (handleJoinRoom env ws m st).1.rooms r = mapGet st.rooms r)) := by
  constructor
  · intro rid h0 h1 h2 hcap hfresh
    have hA : ¬ (rid = "" ∨ rid.length > 20) := by
      push_neg
      exact ⟨h1, h2⟩
    have hB : ¬ st.rooms.length ≥ st.maxRooms := Nat.not_le.mpr hcap
    constructor
    · simp [handleCreateRoom, h0, hA, hB, hfresh, mapGet_mapSet_self]
    · intro r hr
      simp [handleCreateRoom, h0, hA, hB, hfresh, mapGet_mapSet_ne _ _ hr]
  · intro rid room h0 h1 hroom hcap
    have hB : ¬ room.viewers.length ≥ 50 := Nat.not_le.mpr hcap
    constructor
    · simp [handleJoinRoom, h0, h1, hroom, hB, mapGet_mapSet_self]
    · intro r hr
      simp [handleJoinRoom, h0, h1, hroom, hB, mapGet_mapSet_ne _ _ hr]

/-- Witness for C3_theorem: the already-bound host `0` of `stB` creates
`"B"` and its binding is replaced while `"R"` is untouched. -/
theorem C3_witness :
    mapGet (handleCreateRoom envT 0 { roomId? := some "B" } stB).1.connections 0 =
      some (.host "B") ∧
    mapGet (handleCreateRoom envT 0 { roomId? := some "B" } stB).1.rooms "R" =
      mapGet stB.rooms "R" :=
  have h := (C3_theorem envT 0 { roomId? := some "B" } stB (.host "R") rfl).1
    "B" rfl (by decide) (by decide) (by decide) rfl
  ⟨h.1, h.2 "R" (by decide)⟩

/-! ### C4 — host disconnection -/

/-- C4: when a host's connection disconnects, its room is removed from
the Room Table and every open viewer in the room's viewer set is sent
exactly one host-disconnected notification. -/
theorem C4_theorem (env : Env) (ws : Nat) (st : ServerState) (rid : String) (room : Room)
    (h1 : mapGet st.connections ws = some (.host rid))
    (h2 : mapGet st.rooms rid = some room)
    (hnd : room.viewers.Nodup) :
    mapGet (handleDisconnection env ws st).1.rooms rid = none ∧
    (∀ v, v ∈ room.viewers → env.isOpen v = true →
      (handleDisconnection env ws st).2.count (.send v .hostDisconnected) = 1) := by
  have hred : handleDisconnection env ws st =
      ({ st with rooms := mapDelete st.rooms rid,
                 connections := mapDelete st.connections ws },
        (room.viewers.filter env.isOpen).map (fun v => .send v .hostDisconnected)) := by
    simp [handleDisconnection, h1, Binding.roomId, h2]
  rw [hred]
  constructor
  · exact mapGet_mapDelete_self _ _
  · intro v hv hopen
    have hinj : Function.Injective (fun v => Effect.send v .hostDisconnected) := by
      intro a b hab
      simpa using hab
    have hcnt : ((room.viewers.filter env.isOpen).map
        (fun v => Effect.send v .hostDisconnected)).count (.send v .hostDisconnected) =
        (room.viewers.filter env.isOpen).count v :=
      List.count_map_of_injective _ _ hinj _
    rw [hcnt]
    exact List.count_eq_one_of_mem (hnd.filter _) (List.mem_filter.mpr ⟨hv, hopen⟩)

/-- Witness for C4_theorem at `stA` (host 0, open viewers 1 and 2). -/
theorem C4_witness :
    mapGet (handleDisconnection envT 0 stA).1.rooms "R" = none ∧
    (handleDisconnection envT 0 stA).2.count (.send 1 .hostDisconnected) = 1 :=
  have h := C4_theorem envT 0 stA "R" ⟨0, [1, 2], 1⟩ rfl rfl (by decide)
  ⟨h.1, h.2 1 (by decide) rfl⟩

/-! ### C6 — offer/answer/ICE forwarding -/

/-- Facts about the viewer-search loop: a found target is a member of
the searched viewer set, has a connections entry, and that entry's
`viewerId` equals the message's `viewerId`. -/
theorem findTarget_some {st : ServerState} {viewers : List Nat} {vid? : Option String}
    {v : Nat} (h : findTarget st viewers vid? = some v) :
    v ∈ viewers ∧ ∃ b, mapGet st.connections v = some b ∧ b.viewerId? = vid? := by
  have h1 := List.mem_of_find?_eq_some h
  have h2 := List.find?_some h
  refine ⟨h1, ?_⟩
  rcases hb : mapGet st.connections v with _ | b
  · rw [hb] at h2
    cases h2
  · rw [hb] at h2
    exact ⟨b, rfl, by simpa using h2⟩

/-- C6: offers are forwarded only for a sender bound as host, answers
only for a sender bound as viewer; the forwarded payload field equals
the received one; each handler sends at most one message, whose
recipient is a member of the sender's own room (the viewer matching the
message's `viewerId`, or the room's host), never a connection outside
that room's structures; and no handler mutates server state. -/
theorem C6_theorem (env : Env) (ws : Nat) (m : InMsg) (st : ServerState) :
    (handleOffer env ws m st).1 = st ∧
    (handleAnswer env ws m st).1 = st ∧
    (handleIceCandidate env ws m st).1 = st ∧
    (handleOffer env ws m st).2.length ≤ 1 ∧
    (handleAnswer env ws m st).2.length ≤ 1 ∧
    (handleIceCandidate env ws m st).2.length ≤ 1 ∧
    (∀ r msg, Effect.send r msg ∈ (handleOffer env ws m st).2 →
      ∃ rid room b, mapGet st.connections ws = some (.host rid) ∧
        mapGet st.rooms rid = some room ∧ r ∈ room.viewers ∧
        mapGet st.connections r = some b ∧ b.viewerId? = m.viewerId? ∧
        env.isOpen r = true ∧ msg = .offerOut m.offer?) ∧
    (∀ r msg, Effect.send r msg ∈ (handleAnswer env ws m st).2 →
      ∃ rid vid room, mapGet st.connections ws = some (.viewer rid vid) ∧
        mapGet st.rooms rid = some room ∧ r = room.host ∧
        env.isOpen r = true ∧ msg = .answerOut m.answer? vid) ∧
    (∀ r msg, Effect.send r msg ∈ (handleIceCandidate env ws m st).2 →
      ∃ conn room, mapGet st.connections ws = some conn ∧
        mapGet st.rooms conn.roomId = some room ∧ env.isOpen r = true ∧
        ((∃ rid, conn = .host rid ∧ r ∈ room.viewers ∧
            (∃ b, mapGet st.connections r = some b ∧ b.viewerId? = m.viewerId?) ∧
            msg = .iceOut m.candidate? none) ∨
         (∃ rid vid, conn = .viewer rid vid ∧ r = room.host ∧
            msg = .iceOut m.candidate? (some vid)))) := by
  refine ⟨?_, ?_, ?_, ?_, ?_, ?_, ?_, ?_, ?_⟩
  · rw [handleOffer]
    repeat' split
    all_goals rfl
  · rw [handleAnswer]
    repeat' split
    all_goals rfl
  · rw [handleIceCandidate]
    repeat' split
    all_goals rfl
  · rw [handleOffer]
    repeat' split
    all_goals simp
  · rw [handleAnswer]
    repeat' split
    all_goals simp
  · rw [handleIceCandidate]
    repeat' split
    all_goals simp
  · intro r msg hmem
    rw [handleOffer] at hmem
    split at hmem
    · cases hmem
    rename_i conn heqc
    split at hmem
    · cases hmem
    rename_i hhost
    split at hmem
    · cases hmem
    rename_i room heqr
    split at hmem
    · cases hmem
    rename_i v heqf
    split at hmem
    · rename_i hopen
      simp only [List.mem_singleton] at hmem
      injection hmem with hm1 hm2
      subst hm1
      subst hm2
      obtain ⟨hv, b, hbg, hbv⟩ := findTarget_some heqf
      rcases conn with rid | ⟨rid, vid⟩
      · exact ⟨rid, room, b, heqc, heqr, hv, hbg, hbv, hopen, rfl⟩
      · simp [Binding.isHost] at hhost
    · cases hmem
  · intro r msg hmem
    rw [handleAnswer] at hmem
    split at hmem
    · cases hmem
    rename_i conn heqc
    split at hmem
    · cases hmem
    rename_i rid vid
    split at hmem
    · cases hmem
    rename_i room heqr
    split at hmem
    · rename_i hopen
      simp only [List.mem_singleton] at hmem
      injection hmem with hm1 hm2
      subst hm1
      subst hm2
      exact ⟨rid, vid, room, heqc, heqr, rfl, hopen, rfl⟩
    · cases hmem
  · intro r msg hmem
    rw [handleIceCandidate] at hmem
    split at hmem
    · cases hmem
    rename_i conn heqc
    split at hmem
    · cases hmem
    rename_i room heqr
    split at hmem
    · -- host branch: the inner match on findTarget sits inside the effect list
      rename_i rid
      split at hmem
      · cases hmem
      rename_i v heqf
      split at hmem
      · rename_i hopen
        simp only [List.mem_singleton] at hmem
        injection hmem with hm1 hm2
        subst hm1
        subst hm2
        obtain ⟨hv, b, hbg, hbv⟩ := findTarget_some heqf
        exact ⟨.host rid, room, heqc, heqr, hopen,
          Or.inl ⟨rid, rfl, hv, ⟨b, hbg, hbv⟩, rfl⟩⟩
      · cases hmem
    · -- viewer branch
      rename_i rid vid
      split at hmem
      · rename_i hopen
        simp only [List.mem_singleton] at hmem
        injection hmem with hm1 hm2
        subst hm1
        subst hm2
        exact ⟨.viewer rid vid, room, heqc, heqr, hopen,
          Or.inr ⟨rid, vid, rfl, rfl, rfl⟩⟩
      · cases hmem

/-- Witness for C6_theorem: the offer addressed to `"v2"` in `stA` is
delivered to the matching member of the host's own room. -/
theorem C6_witness :
    (handleOffer envT 0 { viewerId? := some "v2", offer? := some "sdp" } stA).1 = stA ∧
    (∃ rid room b, mapGet stA.connections 0 = some (.host rid) ∧
      mapGet stA.rooms rid = some room ∧ 2 ∈ room.viewers ∧
      mapGet stA.connections 2 = some b ∧
      b.viewerId? = InMsg.viewerId? { viewerId? := some "v2", offer? := some "sdp" } ∧
      envT.isOpen 2 = true ∧
      OutMsg.offerOut (some "sdp") =
        .offerOut (InMsg.offer? { viewerId? := some "v2", offer? := some "sdp" })) :=
  ⟨(C6_theorem envT 0 { viewerId? := some "v2", offer? := some "sdp" } stA).1,
    (C6_theorem envT 0 { viewerId? := some "v2", offer? := some "sdp" } stA).2.2.2.2.2.2.1
      2 (.offerOut (some "sdp")) (by decide)⟩

/-! ### C10 — per-message frame effect -/

/-- C10: one inbound message mutates at most the room named by the
message (create/join target) or the room of the sender's own binding,
and at most the sender's own binding: every other Room Table entry and
every other connection's binding are unchanged by `handleMessage`. -/
theorem C10_theorem (env : Env) (ws : Nat) (m : InMsg) (st : ServerState) :
    (∀ c, c ≠ ws →
      mapGet (handleMessage env ws m st).1.connections c = mapGet st.connections c) ∧
    (∀ r, some r ≠ Option.map Binding.roomId (mapGet st.connections ws) →
      m.roomId? ≠ some r →
      mapGet (handleMessage env ws m st).1.rooms r = mapGet st.rooms r) := by
  constructor
  · intro c hc
    rw [handleMessage]
    split
    · rfl
    split
    · rw [handleCreateRoom]
      repeat' split
      all_goals first | rfl | exact mapGet_mapSet_ne _ _ hc
    · rw [handleJoinRoom]
      repeat' split
      all_goals first | rfl | exact mapGet_mapSet_ne _ _ hc
    · rw [handleLeaveRoom]
      repeat' split
      all_goals first | rfl | exact mapGet_mapDelete_ne _ hc
    · rw [handleOffer]
      repeat' split
      all_goals rfl
    · rw [handleAnswer]
      repeat' split
      all_goals rfl
    · rw [handleIceCandidate]
      repeat' split
      all_goals rfl
    · rfl
  · intro r h1 h2
    rw [handleMessage]
    split
    · rfl
    split
    · rw [handleCreateRoom]
      repeat' split
      all_goals first
        | rfl
        | (refine mapGet_mapSet_ne _ _ ?_
           intro hrr
           subst hrr
           simp_all [Binding.roomId])
    · rw [handleJoinRoom]
      repeat' split
      all_goals first
        | rfl
        | (refine mapGet_mapSet_ne _ _ ?_
           intro hrr
           subst hrr
           simp_all [Binding.roomId])
    · rw [handleLeaveRoom]
      repeat' split
      all_goals first
        | rfl
        | (refine mapGet_mapSet_ne _ _ ?_
           intro hrr
           subst hrr
           simp_all [Binding.roomId])
    · rw [handleOffer]
      repeat' split
      all_goals rfl
    · rw [handleAnswer]
      repeat' split
      all_goals rfl
    · rw [handleIceCandidate]
      repeat' split
      all_goals rfl
    · rfl

/-- Witness for C10_theorem: a join-room for `"R"` by connection `3`
leaves connection `1`'s binding and any other room untouched. -/
theorem C10_witness :
    mapGet (handleMessage envT 3 { type? := some "join-room", roomId? := some "R" } stA).1.connections 1 =
      mapGet stA.connections 1 ∧
    mapGet (handleMessage envT 3 { type? := some "join-room", roomId? := some "R" } stA).1.rooms "Q" =
      mapGet stA.rooms "Q" :=
  ⟨(C10_theorem envT 3 { type? := some "join-room", roomId? := some "R" } stA).1 1 (by decide),
   (C10_theorem envT 3 { type? := some "join-room", roomId? := some "R" } stA).2 "Q" (by decide)
     (by decide)⟩

/-! ### Consistency-preservation lemmas for C1 -/

theorem entryOk_iff (rooms : List (String × Room)) (e : Nat × Binding) :
    entryOk rooms e = true ↔
      ∃ room, mapGet rooms e.2.roomId = some room ∧
        (e.2.isHost = true ∨ room.viewers.contains e.1 = true) := by
  rcases hr : mapGet rooms e.2.roomId with _ | room
  · simp [entryOk, hr]
  · rcases hb : e.2 with rid | ⟨rid, vid⟩
    · rw [hb] at hr
      simp only [Binding.roomId] at hr
      simp [entryOk, hb, hr, Binding.roomId, Binding.isHost]
    · rw [hb] at hr
      simp only [Binding.roomId] at hr
      simp [entryOk, hb, hr, Binding.roomId, Binding.isHost]

theorem consistentB_iff (st : ServerState) :
    consistentB st = true ↔ ∀ e ∈ st.connections, entryOk st.rooms e = true := by
  simp [consistentB, List.all_eq_true]

/-- A fresh room installed together with its host binding preserves
consistency. -/
theorem consistent_insert (st : ServerState) (rid : String) (ws now2 : Nat)
    (h : consistentB st = true) (hfresh : mapHas st.rooms rid = false) :
    consistentB { st with rooms := mapSet st.rooms rid ⟨ws, [], now2⟩,
                          connections := mapSet st.connections ws (.host rid) } = true := by
  rw [consistentB_iff] at h ⊢
  intro e he
  rcases mem_mapSet he with rfl | he2
  · rw [entryOk_iff]
    exact ⟨⟨ws, [], now2⟩, by simp [Binding.roomId, mapGet_mapSet_self], Or.inl rfl⟩
  · have h2 := (entryOk_iff _ _).mp (h e he2)
    rcases h2 with ⟨room, hr, hv⟩
    by_cases hrid : e.2.roomId = rid
    · rw [hrid, mapGet_eq_none_of_mapHas_false hfresh] at hr
      cases hr
    · rw [entryOk_iff]
      exact ⟨room, by rwa [mapGet_mapSet_ne _ _ hrid], hv⟩

/-- Adding a viewer to an existing room together with its binding
preserves consistency. -/
theorem consistent_join (st : ServerState) (rid vid : String) (ws : Nat) (room : Room)
    (h : consistentB st = true) (hroom : mapGet st.rooms rid = some room) :
    consistentB { st with
        rooms := mapSet st.rooms rid { room with viewers := setAdd room.viewers ws },
        connections := mapSet st.connections ws (.viewer rid vid) } = true := by
  rw [consistentB_iff] at h ⊢
  intro e he
  rcases mem_mapSet he with rfl | he2
  · rw [entryOk_iff]
    refine ⟨{ room with viewers := setAdd room.viewers ws },
      by simp [Binding.roomId, mapGet_mapSet_self], Or.inr ?_⟩
    exact setAdd_contains_self _ _
  · have h2 := (entryOk_iff _ _).mp (h e he2)
    rcases h2 with ⟨room2, hr, hv⟩
    rw [entryOk_iff]
    by_cases hrid : e.2.roomId = rid
    · rw [hrid] at hr
      rw [hroom] at hr
      injection hr with hr2
      subst hr2
      refine ⟨{ room with viewers := setAdd room.viewers ws },
        by rw [hrid, mapGet_mapSet_self], ?_⟩
      rcases hv with hv | hv
      · exact Or.inl hv
      · exact Or.inr (setAdd_contains_of_contains _ hv)
    · exact ⟨room2, by rwa [mapGet_mapSet_ne _ _ hrid], hv⟩

/-- Removing a viewer connection from a room's set together with its
binding preserves consistency. -/
theorem consistent_removeViewer (st : ServerState) (rid : String) (ws : Nat) (room : Room)
    (h : consistentB st = true) (hroom : mapGet st.rooms rid = some room) :
    consistentB { st with
        rooms := mapSet st.rooms rid { room with viewers := setDel room.viewers ws },
        connections := mapDelete st.connections ws } = true := by
  rw [consistentB_iff] at h ⊢
  intro e he
  obtain ⟨he2, hne⟩ := mem_mapDelete he
  have h2 := (entryOk_iff _ _).mp (h e he2)
  rcases h2 with ⟨room2, hr, hv⟩
  rw [entryOk_iff]
  by_cases hrid : e.2.roomId = rid
  · rw [hrid] at hr
    rw [hroom] at hr
    injection hr with hr2
    subst hr2
    refine ⟨{ room with viewers := setDel room.viewers ws },
      by rw [hrid, mapGet_mapSet_self], ?_⟩
    rcases hv with hv | hv
    · exact Or.inl hv
    · exact Or.inr (setDel_contains_of_ne hne hv)
  · exact ⟨room2, by rwa [mapGet_mapSet_ne _ _ hrid], hv⟩

/-- Deleting a binding alone (the rooms table untouched) preserves
consistency. -/
theorem consistent_delete_conn (st : ServerState) (ws : Nat)
    (h : consistentB st = true) :
    consistentB { st with connections := mapDelete st.connections ws } = true := by
  rw [consistentB_iff] at h ⊢
  intro e he
  exact h e (mem_mapDelete he).1

/-! ### C1 — Room Table / Binding Table consistency -/

/-- C1 counterexample: `stA` is consistent; after the host of `"R"`
disconnects, the room is gone but viewer `1` still holds a binding
whose `roomId` names the deleted room — the Binding Table is no longer
consistent with the Room Table, contradicting the claim that every
mutation path (in particular host disconnection) keeps them consistent. -/
theorem C1_counterexample :
    consistentB stA = true ∧
    mapGet (handleDisconnection envT 0 stA).1.rooms "R" = none ∧
    mapGet (handleDisconnection envT 0 stA).1.connections 1 = some (.viewer "R" "v1") ∧
    consistentB (handleDisconnection envT 0 stA).1 = false := by
  refine ⟨by decide, rfl, rfl, by decide⟩

/-- C1 (amended): create-room, join-room, leave-room and a viewer's
disconnection each preserve the Room Table / Binding Table consistency
invariant; but a host disconnection deletes the room while leaving
every other connection's binding (in particular its viewers' bindings,
which then name the deleted room) untouched, and a janitor sweep
deletes rooms without touching the Binding Table at all. -/
theorem C1_theorem (env : Env) (ws : Nat) (m : InMsg) (st : ServerState)
    (h : consistentB st = true) :
    consistentB (handleCreateRoom env ws m st).1 = true ∧
    consistentB (handleJoinRoom env ws m st).1 = true ∧
    consistentB (handleLeaveRoom env ws st).1 = true ∧
    (∀ rid vid, mapGet st.connections ws = some (.viewer rid vid) →
      consistentB (handleDisconnection env ws st).1 = true) ∧
    (∀ rid, mapGet st.connections ws = some (.host rid) →
      ∀ c, c ≠ ws →
        mapGet (handleDisconnection env ws st).1.connections c = mapGet st.connections c) ∧
    (cleanupStaleRooms env st).1.connections = st.connections := by
  refine ⟨?_, ?_, ?_, ?_, ?_, ?_⟩
  · rw [handleCreateRoom]
    split
    · exact h
    rename_i rid hrid
    split
    · exact h
    split
    · exact h
    split
    · exact h
    rename_i hfresh
    exact consistent_insert st rid ws env.now h (by simpa using hfresh)
  · rw [handleJoinRoom]
    split
    · exact h
    rename_i rid hrid2
    split
    · exact h
    split
    · exact h
    rename_i room heq
    split
    · exact h
    exact consistent_join st rid env.newViewerId ws room h heq
  · rw [handleLeaveRoom]
    split
    · exact h
    rename_i conn heqc
    split
    · exact h
    rename_i room heqr
    split
    · exact consistent_delete_conn st ws h
    rename_i rid vid
    exact consistent_removeViewer st rid ws room h (by simpa [Binding.roomId] using heqr)
  · intro rid vid hconn
    rw [handleDisconnection, hconn]
    dsimp only [Binding.roomId]
    split
    · exact h
    rename_i room heqr
    exact consistent_removeViewer st rid ws room h heqr
  · intro rid hconn c hc
    rw [handleDisconnection, hconn]
    dsimp only [Binding.roomId]
    split
    · rfl
    · exact mapGet_mapDelete_ne _ hc
  · exact sweep_connections env st.rooms st []

/-- Witness for C1_theorem at `stA`: a join preserves consistency, and
after the host's disconnection viewer `1`'s binding entry is untouched. -/
theorem C1_witness :
    consistentB (handleJoinRoom envT 3 { roomId? := some "R" } stA).1 = true ∧
    mapGet (handleDisconnection envT 0 stA).1.connections 1 = mapGet stA.connections 1 :=
  ⟨(C1_theorem envT 3 { roomId? := some "R" } stA (by decide)).2.1,
   (C1_theorem envT 0 {} stA (by decide)).2.2.2.2.1 "R" rfl 1 (by decide)⟩

end Karaoke
